import Mathlib

/-!
Verification of the live-session core of the SanzMultiFunction client.

The definitions below are a shallow embedding of the real-time streaming
session manager found in `src/components/LiveInterface.tsx` and of the
connect-configuration plumbing in `src/services/geminiService.ts`.
React `useState`/`useRef` cells become fields of a single `LiveState`
record; each event handler of the source becomes a pure function from
state (plus the handler's inputs) to state, returning any outward
effects (payloads sent, playback sources stopped) explicitly.
Times and audio samples are modelled as rationals.
-/

namespace SanzLive

/-- Session status, mirroring the string union at LiveInterface.tsx line 18. -/
inductive Status
  | IDLE
  | PROVISIONING
  | CONNECTING
  | LIVE
deriving DecidableEq, Repr

/-- Transcript speaker role, mirroring the union at LiveInterface.tsx line 25. -/
inductive Role
  | user
  | model
  | tool
deriving DecidableEq, Repr

/-- One line of the transcript (LiveInterface.tsx line 25). -/
structure TranscriptEntry where
  role : Role
  text : String
deriving DecidableEq, Repr

/-- The mutable state of the live-session component: the `useState` cells and
`useRef` cells of LiveInterface.tsx (lines 11-38).  Resource handles that the
source stores as nullable refs (session, media streams, audio contexts, the
video frame timer) are modelled as booleans recording whether the resource is
currently held/open; the in-flight playback sources set is a list of source
ids; `micLevelSq` holds the mean square of the last frame (the source displays
its square root, line 146). -/
structure LiveState where
  isActive : Bool
  isMuted : Bool
  isCameraOn : Bool
  status : Status
  resumptionHandle : Option String
  timeLeft : Option String
  tokenExpiresAt : Option ℚ
  tokenTimeRemaining : ℚ
  transcriptions : List TranscriptEntry
  currentThoughts : String
  micLevelSq : ℚ
  nextStartTime : ℚ
  sources : List Nat
  frameInterval : Bool
  micStream : Bool
  videoStream : Bool
  audioContextIn : Bool
  audioContextOut : Bool
  session : Bool
deriving DecidableEq, Repr

/-- Full teardown, mirroring `stopSession` (LiveInterface.tsx lines 59-94):
close the session, clear the video frame timer, stop mic and video tracks,
stop every in-flight playback source and clear the set, close both audio
contexts, drop the active flags, return to IDLE, zero the mic level.
Returns the new state together with the ids of the sources stopped. -/
def stopSession (st : LiveState) : LiveState × List Nat :=
  ({ st with
      session := false
      frameInterval := false
      micStream := false
      videoStream := false
      sources := []
      audioContextIn := false
      audioContextOut := false
      isActive := false
      isCameraOn := false
      status := .IDLE
      micLevelSq := 0 },
   st.sources)

/-- One tick of the once-per-second credential countdown timer
(LiveInterface.tsx lines 46-57).  When a credential is held, recompute the
remaining lifetime as `max 0 (expiresAt - now)`; if it has reached zero, drop
the credential and, if the session is active, tear it down via `stopSession`.
Returns the new state and the ids of any playback sources stopped. -/
def tokenTick (st : LiveState) (now : ℚ) : LiveState × List Nat :=
  match st.tokenExpiresAt with
  | none => (st, [])
  | some expiresAt =>
    let remaining := max 0 (expiresAt - now)
    let st1 := { st with tokenTimeRemaining := remaining }
    if remaining ≤ 0 then
      let st2 := { st1 with tokenExpiresAt := none }
      if st2.isActive then stopSession st2 else (st2, [])
    else (st1, [])

/-- Session-resumption update handling (LiveInterface.tsx lines 163-168):
store the new handle exactly when the update is marked resumable and carries
a (truthy, i.e. nonempty) new handle. -/
def handleResumptionUpdate (st : LiveState) (resumable : Bool)
    (newHandle : Option String) : LiveState :=
  match newHandle with
  | some h => if resumable && h != "" then { st with resumptionHandle := some h } else st
  | none => st

/-- goAway notice handling (LiveInterface.tsx lines 170-172). -/
def handleGoAway (st : LiveState) (t : String) : LiveState :=
  { st with timeLeft := some t }

/-- Inbound audio-chunk scheduling (LiveInterface.tsx lines 174-194):
`nextStartTime := max nextStartTime currentTime`, start the source at
`nextStartTime`, then `nextStartTime += duration`, adding the source to the
in-flight set.  `now` is the playback clock reading at handling time, `dur`
the decoded buffer's duration.  Returns the new state and the scheduled
start time. -/
def handleAudioChunk (st : LiveState) (now dur : ℚ) (srcId : Nat) :
    LiveState × ℚ :=
  let start := max st.nextStartTime now
  ({ st with nextStartTime := start + dur, sources := st.sources ++ [srcId] },
   start)

/-- The transcript-delta update shared by the input- and output-transcription
blocks (LiveInterface.tsx lines 197-217): if the most recent entry has the
delta's role, replace it by the same entry with the delta's text concatenated
(`prev.slice(0,-1)` followed by the merged entry); otherwise push a fresh
entry. -/
def appendDeltaAt (ts : List TranscriptEntry) (r : Role) (text : String) :
    List TranscriptEntry :=
  match ts.getLast? with
  | some last =>
    if last.role = r then ts.dropLast ++ [⟨r, last.text ++ text⟩]
    else ts ++ [⟨r, text⟩]
  | none => ts ++ [⟨r, text⟩]

/-- inputTranscription delta (LiveInterface.tsx lines 197-206): role `user`. -/
def handleInputTranscription (st : LiveState) (text : String) : LiveState :=
  { st with transcriptions := appendDeltaAt st.transcriptions .user text }

/-- outputTranscription delta (LiveInterface.tsx lines 208-217): role `model`. -/
def handleOutputTranscription (st : LiveState) (text : String) : LiveState :=
  { st with transcriptions := appendDeltaAt st.transcriptions .model text }

/-- A function call from an inbound tool-call message (fields used at
LiveInterface.tsx lines 221-233). -/
structure FunctionCall where
  id : String
  name : String
  args : List (String × String)
deriving DecidableEq, Repr

/-- The result payload built for one call (LiveInterface.tsx lines 224-227). -/
structure ToolResultPayload where
  status : String
  temperature : Option String
  location : Option String
deriving DecidableEq, Repr

/-- Local tool dispatch (LiveInterface.tsx lines 224-227): default result is
a generic success payload; a `get_weather` call gets a canned weather answer
echoing its `location` argument.  Any other name, registered or not, keeps
the generic success payload. -/
def dispatch (fc : FunctionCall) : ToolResultPayload :=
  if fc.name = "get_weather" then
    { status := "success", temperature := some "22Â°C",
      location := fc.args.lookup "location" }
  else
    { status := "success", temperature := none, location := none }

/-- One entry of the batched tool response (LiveInterface.tsx lines 229-233). -/
structure FunctionResponse where
  id : String
  name : String
  response : ToolResultPayload
deriving DecidableEq, Repr

/-- Tool-call message handling (LiveInterface.tsx lines 219-241): for each
call append a `Tool Exec` transcript entry and collect one response tagged
with the call's id; after the loop, send the collected responses as a single
batch when nonempty.  Returns the new state and the list of
`sendToolResponse` batches emitted (each list element is one send). -/
def handleToolCall (st : LiveState) (calls : List FunctionCall) :
    LiveState × List (List FunctionResponse) :=
  let functionResponses :=
    calls.map (fun fc =>
      ({ id := fc.id, name := fc.name, response := dispatch fc } : FunctionResponse))
  let st1 :=
    { st with transcriptions :=
        st.transcriptions ++
          calls.map (fun fc => ({ role := .tool, text := "Tool Exec: " ++ fc.name } : TranscriptEntry)) }
  (st1, if functionResponses.length > 0 then [functionResponses] else [])

/-- Reasoning/thought delta (LiveInterface.tsx lines 243-246). -/
def handleThought (st : LiveState) (text : String) : LiveState :=
  { st with currentThoughts := st.currentThoughts ++ text }

/-- turnComplete signal (LiveInterface.tsx lines 248-250). -/
def handleTurnComplete (st : LiveState) : LiveState :=
  { st with currentThoughts := "" }

/-- Interruption signal handling (LiveInterface.tsx lines 252-259): stop every
in-flight source, clear the set, reset the playback cursor to 0, clear the
reasoning buffer.  Returns the new state and the ids of the sources stopped. -/
def handleInterrupted (st : LiveState) : LiveState × List Nat :=
  ({ st with sources := [], nextStartTime := 0, currentThoughts := "" },
   st.sources)

/-- Remote error handling (LiveInterface.tsx lines 261-264): full teardown via
`stopSession`. -/
def onError (st : LiveState) : LiveState × List Nat :=
  stopSession st

/-- Remote close handling (LiveInterface.tsx lines 265-268): only drops the
active flag and returns the status to IDLE. -/
def onClose (st : LiveState) : LiveState :=
  { st with isActive := false, status := .IDLE }

/-- Connect-attempt state preparation (LiveInterface.tsx lines 115-126): set
status CONNECTING, clear the goAway estimate, clear the transcript and the
reasoning buffer exactly when no (truthy) resumption handle is held, open
fresh audio contexts, reset the playback cursor. -/
def startSessionPrep (st : LiveState) : LiveState :=
  let st1 := { st with status := .CONNECTING, timeLeft := none }
  let st2 :=
    match st.resumptionHandle with
    | some h =>
      if h = "" then { st1 with transcriptions := [], currentThoughts := "" } else st1
    | none => { st1 with transcriptions := [], currentThoughts := "" }
  { st2 with audioContextIn := true, audioContextOut := true, nextStartTime := 0 }

/-- The resumption handle passed in the connect options (LiveInterface.tsx
line 275: `resumptionHandle: resumptionHandle || undefined`). -/
def liveConfigResumptionHandle (st : LiveState) : Option String :=
  match st.resumptionHandle with
  | some h => if h = "" then none else some h
  | none => none

/-- The sessionResumption handle of the connect request configuration
(geminiService.ts lines 377-379: `sessionResumption: liveConfig.resumptionHandle
? ... : undefined`), composed with `liveConfigResumptionHandle`. -/
def sessionResumptionConfig (st : LiveState) : Option String :=
  match liveConfigResumptionHandle st with
  | some h => if h = "" then none else some h
  | none => none

/-- Modelled from the spec (section 4.1 PCM Codec): the repository module
`services/audioUtils` (`createPcmBlob`, `decodeBase64`, `decodeAudioData`) is
imported by LiveInterface.tsx line 4 but its source file is not present under
src/.  Per the spec, `encode` clamps each sample to [-1,1] and scales it to
the signed 16-bit range; this step produces that 16-bit integer for one
sample. -/
def encodeSample (s : ℚ) : ℤ :=
  let c := max (-1) (min 1 s)
  min 32767 (max (-32768) (round (c * 32768)))

/-- Modelled from the spec (section 4.1): little-endian byte pair of a signed
16-bit value (two's complement). -/
def int16ToBytesLE (n : ℤ) : List ℕ :=
  let u := (n % 65536).toNat
  [u % 256, u / 256]

/-- Modelled from the spec (section 4.1): `encode(samples) -> bytes`, the
clamp-scale-serialize pipeline over a whole sample array.  Never fails. -/
def encode (samples : List ℚ) : List ℕ :=
  (samples.map (fun s => int16ToBytesLE (encodeSample s))).flatten

/-- Modelled from the spec (section 4.1): the audio payload built by
`createPcmBlob` from one captured frame is its PCM encoding. -/
def createPcmBlob (samples : List ℚ) : List ℕ :=
  encode samples

/-- A decoded audio buffer (spec section 3, AudioChunk). -/
structure AudioChunk where
  samples : List ℚ
  sampleRate : ℕ
  channels : ℕ
deriving DecidableEq, Repr

/-- Modelled from the spec (section 4.1): decode failure. -/
inductive DecodeError
  | invalidLength
deriving DecidableEq, Repr

/-- Modelled from the spec (section 4.1): read one signed 16-bit value from a
little-endian byte pair. -/
def bytesToInt16LE (lo hi : ℕ) : ℤ :=
  let u := lo + 256 * hi
  if u < 32768 then (u : ℤ) else (u : ℤ) - 65536

/-- Modelled from the spec (section 4.1): samples of a PCM byte stream, two
bytes per sample, each scaled back to [-1,1). -/
def decodeSamples : List ℕ → List ℚ
  | lo :: hi :: rest => ((bytesToInt16LE lo hi : ℚ) / 32768) :: decodeSamples rest
  | _ => []

/-- Modelled from the spec (section 4.1): `decode(bytes, sampleRate, channels)
-> AudioChunk`, failing with `DecodeError` exactly when the byte length is not
a multiple of `2 * channels`. -/
def decode (bytes : List ℕ) (sampleRate channels : ℕ) :
    Except DecodeError AudioChunk :=
  if bytes.length % (2 * channels) = 0 then
    .ok { samples := decodeSamples bytes, sampleRate := sampleRate,
          channels := channels }
  else
    .error .invalidLength

/-- Microphone frame handling (LiveInterface.tsx lines 139-153).  The
handler is a closure installed once inside `onopen`; its guard
`if (isMuted || !isActive) return` reads the `isMuted` and `isActive`
bindings captured from the render in which `startSession` ran, not the
current component state, so those frozen values are passed here as
`capturedMuted` and `capturedActive` alongside the current state `st`.
When the guard passes, the mic level is updated from the frame's energy and
the frame is PCM-encoded and handed to the session (`sendRealtimeInput`).
Returns the new state and the payload sent, if any. -/
def onaudioprocess (st : LiveState) (capturedMuted capturedActive : Bool)
    (frame : List ℚ) : LiveState × Option (List ℕ) :=
  if capturedMuted || !capturedActive then (st, none)
  else
    let meanSquare := (frame.map (fun x => x * x)).sum / (frame.length : ℚ)
    ({ st with micLevelSq := meanSquare }, some (createPcmBlob frame))

/-- One scheduling step of the playback cursor, abstracting
`handleAudioChunk` to the cursor alone (LiveInterface.tsx lines 177-191):
a chunk `c` is its (clock reading, duration) pair; the result is (new cursor,
scheduled start). -/
def schedStep (cursor : ℚ) (c : ℚ × ℚ) : ℚ × ℚ :=
  (max cursor c.1 + c.2, max cursor c.1)

/-- Scheduled start times of a sequence of chunks handled in arrival order,
iterating `schedStep` from an initial cursor. -/
def schedStarts : ℚ → List (ℚ × ℚ) → List ℚ
  | _, [] => []
  | cursor, c :: cs => (schedStep cursor c).2 :: schedStarts (schedStep cursor c).1 cs

/-- A neutral live state used to instantiate concrete scenarios. -/
def baseState : LiveState where
  isActive := true
  isMuted := false
  isCameraOn := false
  status := .LIVE
  resumptionHandle := none
  timeLeft := none
  tokenExpiresAt := none
  tokenTimeRemaining := 0
  transcriptions := []
  currentThoughts := ""
  micLevelSq := 0
  nextStartTime := 0
  sources := []
  frameInterval := false
  micStream := true
  videoStream := false
  audioContextIn := true
  audioContextOut := true
  session := true

/-- The microphone handler as actually installed by `onopen`
(LiveInterface.tsx lines 129-156): `startRender` is the component state of
the render in which `startSession` ran — the closure freezes that render's
`isMuted` and `isActive` bindings, and no later render ever reinstalls the
handler. -/
def installedMicHandler (startRender st : LiveState) (frame : List ℚ) :
    LiveState × Option (List ℕ) :=
  onaudioprocess st startRender.isMuted startRender.isActive frame

/-- The state of the render that starts a session: the Start button renders
only while the status is IDLE, where the session is not yet active
(`setIsActive(true)` runs only later, inside `onopen`, and affects later
renders without changing the binding the handler captured). -/
def idleRender : LiveState :=
  { baseState with isActive := false, status := .IDLE }

theorem schedStarts_length (cursor : ℚ) (cs : List (ℚ × ℚ)) :
    (schedStarts cursor cs).length = cs.length := by
  induction cs generalizing cursor with
  | nil => rfl
  | cons c cs ih => simp [schedStarts, ih]

theorem cursor_le_schedStep (cursor : ℚ) (c : ℚ × ℚ) (hc : 0 ≤ c.2) :
    cursor ≤ (schedStep cursor c).1 := by
  simp only [schedStep]
  have h1 : cursor ≤ max cursor c.1 := le_max_left _ _
  linarith

theorem cursor_le_schedStarts (cursor : ℚ) (cs : List (ℚ × ℚ))
    (hdur : ∀ c ∈ cs, 0 ≤ c.2) (j : ℕ) (hj : j < cs.length) :
    cursor ≤ (schedStarts cursor cs).getD j 0 := by
  induction cs generalizing cursor j with
  | nil => simp at hj
  | cons c cs ih =>
    cases j with
    | zero =>
      simp only [schedStarts, schedStep, List.getD_cons_zero]
      exact le_max_left cursor c.1
    | succ j =>
      have hstep : cursor ≤ (schedStep cursor c).1 :=
        cursor_le_schedStep cursor c (hdur c (by simp))
      have htail : (schedStep cursor c).1
          ≤ (schedStarts (schedStep cursor c).1 cs).getD j 0 :=
        ih (schedStep cursor c).1 (fun d hd => hdur d (by simp [hd])) j
          (by simpa using hj)
      calc cursor ≤ (schedStep cursor c).1 := hstep
        _ ≤ (schedStarts (schedStep cursor c).1 cs).getD j 0 := htail
        _ = (schedStarts cursor (c :: cs)).getD (j + 1) 0 := by
              simp [schedStarts]

theorem schedStarts_pair (cursor : ℚ) (cs : List (ℚ × ℚ))
    (hdur : ∀ c ∈ cs, 0 ≤ c.2) (i j : ℕ) (hij : i < j) (hj : j < cs.length) :
    (schedStarts cursor cs).getD i 0 + (cs.getD i (0, 0)).2
      ≤ (schedStarts cursor cs).getD j 0 := by
  induction cs generalizing cursor i j with
  | nil => simp at hj
  | cons c cs ih =>
    cases j with
    | zero => omega
    | succ j =>
      cases i with
      | zero =>
        have hcur : (schedStep cursor c).2 + c.2 = (schedStep cursor c).1 := by
          simp [schedStep]
        have htail : (schedStep cursor c).1
            ≤ (schedStarts (schedStep cursor c).1 cs).getD j 0 :=
          cursor_le_schedStarts (schedStep cursor c).1 cs
            (fun d hd => hdur d (by simp [hd])) j (by simpa using hj)
        simpa [schedStarts, hcur] using htail
      | succ i =>
        have := ih (schedStep cursor c).1 (fun d hd => hdur d (by simp [hd]))
          i j (by omega) (by simpa using hj)
        simpa [schedStarts] using this

/-- C1: each inbound audio chunk is scheduled to start at
`max (playback cursor) (current playback-clock time)` and the cursor then
advances by exactly the chunk's duration; consequently, over any sequence of
chunks handled in arrival order with nonnegative durations, a later chunk's
scheduled start time is at least the earlier chunk's scheduled start time
plus the earlier chunk's duration, regardless of the clock readings at
arrival. -/
theorem audio_chunks_never_overlap (st : LiveState) (now dur : ℚ)
    (srcId : Nat) (cursor : ℚ) (cs : List (ℚ × ℚ)) (i j : ℕ)
    (hdur : ∀ c ∈ cs, 0 ≤ c.2) (hij : i < j) (hj : j < cs.length) :
    (handleAudioChunk st now dur srcId).2 = max st.nextStartTime now ∧
    (handleAudioChunk st now dur srcId).1.nextStartTime
      = max st.nextStartTime now + dur ∧
    (schedStarts cursor cs).getD i 0 + (cs.getD i (0, 0)).2
      ≤ (schedStarts cursor cs).getD j 0 :=
  ⟨rfl, rfl, schedStarts_pair cursor cs hdur i j hij hj⟩

/-- C1 witness: the spec's own scenario, chunk durations 1.0 s then 0.5 s
arriving in that order, both clock readings 0: the second start time is at
least the first plus 1.0 s. -/
theorem audio_chunks_never_overlap_witness :
    (handleAudioChunk baseState 0 1 0).2 = max baseState.nextStartTime 0 ∧
    (handleAudioChunk baseState 0 1 0).1.nextStartTime
      = max baseState.nextStartTime 0 + 1 ∧
    (schedStarts 0 [((0 : ℚ), (1 : ℚ)), ((0 : ℚ), (1 / 2 : ℚ))]).getD 0 0
        + (([((0 : ℚ), (1 : ℚ)), ((0 : ℚ), (1 / 2 : ℚ))]).getD 0 (0, 0)).2
      ≤ (schedStarts 0 [((0 : ℚ), (1 : ℚ)), ((0 : ℚ), (1 / 2 : ℚ))]).getD 1 0 :=
  audio_chunks_never_overlap baseState 0 1 0 0
    [((0 : ℚ), (1 : ℚ)), ((0 : ℚ), (1 / 2 : ℚ))] 0 1
    (by norm_num [List.forall_mem_cons]) (by norm_num) (by norm_num)

/-- C2: on an interruption signal every in-flight playback source is stopped
and the in-flight set is cleared, the playback cursor is reset, the reasoning
buffer is cleared, and any chunk handled next is scheduled no earlier than
the playback-clock time at the interruption (clock readings are nonnegative
and monotone). -/
theorem interruption_resets_timeline (st : LiveState) (nowI nowC dur : ℚ)
    (srcId : Nat) (hmono : nowI ≤ nowC) :
    (handleInterrupted st).2 = st.sources ∧
    (handleInterrupted st).1.sources = [] ∧
    (handleInterrupted st).1.nextStartTime = 0 ∧
    (handleInterrupted st).1.currentThoughts = "" ∧
    nowI ≤ (handleAudioChunk (handleInterrupted st).1 nowC dur srcId).2 := by
  refine ⟨rfl, rfl, rfl, rfl, ?_⟩
  show nowI ≤ max (0 : ℚ) nowC
  exact le_trans hmono (le_max_right _ _)

/-- A live state with one in-flight playback source, a stale playback cursor
at 100 s and a partially accumulated reasoning buffer, used to instantiate
the interruption scenario. -/
def staleState : LiveState :=
  { baseState with
      sources := [5]
      nextStartTime := 100
      currentThoughts := "partial thought" }

/-- C2 witness: on `staleState`, interruption at clock 1 s followed by a chunk
arriving at clock 2 s: the chunk starts at 2 s ≥ 1 s, not at the stale 100 s
cursor. -/
theorem interruption_resets_timeline_witness :
    (handleInterrupted staleState).2 = staleState.sources ∧
    (handleInterrupted staleState).1.sources = [] ∧
    (handleInterrupted staleState).1.nextStartTime = 0 ∧
    (handleInterrupted staleState).1.currentThoughts = "" ∧
    (1 : ℚ) ≤ (handleAudioChunk (handleInterrupted staleState).1 2 (3 / 10) 9).2 :=
  interruption_resets_timeline staleState 1 2 (3 / 10) 9 (by norm_num)

/-- C3: for an inbound tool-call message with at least one function call,
exactly one `sendToolResponse` batch is emitted for that message, containing
exactly one result per call, each tagged with the id of its originating call;
no partial batch is ever emitted. -/
theorem tool_batch_atomicity (st : LiveState) (calls : List FunctionCall)
    (hne : calls ≠ []) :
    (handleToolCall st calls).2.length = 1 ∧
    ∀ batch ∈ (handleToolCall st calls).2,
      batch.length = calls.length ∧
      ∀ (i : ℕ) (hi : i < batch.length) (hc : i < calls.length),
        (batch.get ⟨i, hi⟩).id = (calls.get ⟨i, hc⟩).id := by
  have hlen : 0 < calls.length := List.length_pos.mpr hne
  constructor
  · simp [handleToolCall, hlen]
  · intro batch hb
    simp only [handleToolCall, List.length_map, if_pos hlen,
      List.mem_singleton] at hb
    subst hb
    refine ⟨by simp, ?_⟩
    intro i hi hc
    simp [List.getElem_map]

/-- The spec's tool-batch scenario: one inbound message carrying two function
calls. -/
def twoCalls : List FunctionCall :=
  [{ id := "call-1", name := "get_weather", args := [("location", "Paris")] },
   { id := "call-2", name := "control_light", args := [] }]

/-- C3 witness: on the two-call message, exactly one batch of exactly two
results is emitted, tagged with the originating call ids. -/
theorem tool_batch_atomicity_witness :
    (handleToolCall baseState twoCalls).2.length = 1 ∧
    ∀ batch ∈ (handleToolCall baseState twoCalls).2,
      batch.length = twoCalls.length ∧
      ∀ (i : ℕ) (hi : i < batch.length) (hc : i < twoCalls.length),
        (batch.get ⟨i, hi⟩).id = (twoCalls.get ⟨i, hc⟩).id :=
  tool_batch_atomicity baseState twoCalls (by decide)

/-- C4: a transcription delta whose role matches the most recent transcript
entry's role appends its text to that entry by concatenation rather than
creating a new entry; a delta whose role differs from the most recent entry's
role (or arrives on an empty transcript) starts a new entry. -/
theorem transcript_coalescing (st : LiveState) (t : String) :
    (∀ last, st.transcriptions.getLast? = some last →
      ((last.role = Role.user →
          (handleInputTranscription st t).transcriptions
            = st.transcriptions.dropLast ++ [⟨Role.user, last.text ++ t⟩]) ∧
       (last.role ≠ Role.user →
          (handleInputTranscription st t).transcriptions
            = st.transcriptions ++ [⟨Role.user, t⟩]) ∧
       (last.role = Role.model →
          (handleOutputTranscription st t).transcriptions
            = st.transcriptions.dropLast ++ [⟨Role.model, last.text ++ t⟩]) ∧
       (last.role ≠ Role.model →
          (handleOutputTranscription st t).transcriptions
            = st.transcriptions ++ [⟨Role.model, t⟩]))) ∧
    (st.transcriptions = [] →
      (handleInputTranscription st t).transcriptions = [⟨Role.user, t⟩] ∧
      (handleOutputTranscription st t).transcriptions = [⟨Role.model, t⟩]) := by
  constructor
  · intro last hlast
    refine ⟨?_, ?_, ?_, ?_⟩ <;> intro hrole <;>
      simp [handleInputTranscription, handleOutputTranscription,
        appendDeltaAt, hlast, hrole]
  · intro hnil
    simp [handleInputTranscription, handleOutputTranscription,
      appendDeltaAt, hnil]

/-- C4 witness: the spec's coalescing scenario — model deltas "Hel" then "lo"
yield one entry "Hello", and a following user delta "Hi" starts a new entry. -/
theorem transcript_coalescing_witness :
    (handleOutputTranscription
        { baseState with transcriptions := [⟨Role.model, "Hel"⟩] } "lo").transcriptions
      = [⟨Role.model, "Hello"⟩] ∧
    (handleInputTranscription
        { baseState with transcriptions := [⟨Role.model, "Hello"⟩] } "Hi").transcriptions
      = [⟨Role.model, "Hello"⟩, ⟨Role.user, "Hi"⟩] := by
  have h1 := transcript_coalescing
    { baseState with transcriptions := [⟨Role.model, "Hel"⟩] } "lo"
  have h2 := transcript_coalescing
    { baseState with transcriptions := [⟨Role.model, "Hello"⟩] } "Hi"
  constructor
  · have := (h1.1 ⟨Role.model, "Hel"⟩ rfl).2.2.1 rfl
    simpa using this
  · have := (h2.1 ⟨Role.model, "Hello"⟩ rfl).2.1 (by decide)
    simpa using this

/-- C5: while a credential is held, each tick of the once-per-second
countdown recomputes the remaining lifetime as `max 0 (expiresAt - now)`;
when it reaches zero the credential is dropped and an active session is torn
down to IDLE even with no server-initiated close, while before expiry the
tick changes nothing but the displayed countdown. -/
theorem credential_expiry_forces_teardown (st : LiveState)
    (expiresAt now : ℚ) (htok : st.tokenExpiresAt = some expiresAt) :
    (tokenTick st now).1.tokenTimeRemaining = max 0 (expiresAt - now) ∧
    (expiresAt ≤ now → st.isActive = true →
      (tokenTick st now).1.status = Status.IDLE ∧
      (tokenTick st now).1.isActive = false ∧
      (tokenTick st now).1.tokenExpiresAt = none ∧
      (tokenTick st now).2 = st.sources) ∧
    (now < expiresAt →
      (tokenTick st now).1 = { st with tokenTimeRemaining := expiresAt - now } ∧
      (tokenTick st now).2 = []) := by
  by_cases hle : expiresAt ≤ now
  · have hrem : max 0 (expiresAt - now) = 0 := max_eq_left (by linarith)
    refine ⟨?_, ?_, ?_⟩
    · cases hact : st.isActive <;>
        simp [tokenTick, htok, hrem, hle, stopSession, hact]
    · intro _ hact
      refine ⟨?_, ?_, ?_, ?_⟩ <;>
        simp [tokenTick, htok, hrem, hle, stopSession, hact]
    · intro hlt; linarith
  · have hlt : now < expiresAt := lt_of_not_le hle
    have hrem : max 0 (expiresAt - now) = expiresAt - now :=
      max_eq_right (by linarith)
    refine ⟨?_, ?_, ?_⟩
    · simp [tokenTick, htok, hle, hrem]
    · intro hle2 _; linarith
    · intro _
      constructor <;> simp [tokenTick, htok, hle, hrem]

/-- C5 witness: a LIVE session whose credential expires at time 5; the tick
at time 5 tears it down to IDLE. -/
theorem credential_expiry_forces_teardown_witness :
    (tokenTick { baseState with tokenExpiresAt := some 5 } 5).1.tokenTimeRemaining
      = max 0 ((5 : ℚ) - 5) ∧
    ((5 : ℚ) ≤ 5 → ({ baseState with tokenExpiresAt := some 5 } : LiveState).isActive = true →
      (tokenTick { baseState with tokenExpiresAt := some 5 } 5).1.status = Status.IDLE ∧
      (tokenTick { baseState with tokenExpiresAt := some 5 } 5).1.isActive = false ∧
      (tokenTick { baseState with tokenExpiresAt := some 5 } 5).1.tokenExpiresAt = none ∧
      (tokenTick { baseState with tokenExpiresAt := some 5 } 5).2
        = ({ baseState with tokenExpiresAt := some 5 } : LiveState).sources) ∧
    ((5 : ℚ) < 5 →
      (tokenTick { baseState with tokenExpiresAt := some 5 } 5).1
        = { { baseState with tokenExpiresAt := some 5 } with
            tokenTimeRemaining := (5 : ℚ) - 5 } ∧
      (tokenTick { baseState with tokenExpiresAt := some 5 } 5).2 = []) :=
  credential_expiry_forces_teardown
    { baseState with tokenExpiresAt := some 5 } 5 5 rfl

/-- C6: evaluation of the faithfully embedded microphone handler at the
claim's failing input.  The handler installed at session start froze the
starting render's bindings (`idleRender`: unmuted, not yet active), so on a
session that is now live and unmuted (`baseState`) a concrete frame is still
dropped — no payload is ever encoded or handed to the session — and toggling
mute changes nothing, since the guard never reads current state.  The
muted-drop half of the claim holds a fortiori; its unmuted-active send half
is false on the code. -/
theorem mic_frames_never_sent :
    baseState.isMuted = false ∧
    baseState.isActive = true ∧
    installedMicHandler idleRender baseState [1 / 2, -(1 / 2)]
      = (baseState, none) ∧
    installedMicHandler { idleRender with isMuted := true } baseState
        [1 / 2, -(1 / 2)]
      = (baseState, none) ∧
    installedMicHandler idleRender { baseState with isMuted := true }
        [1 / 2, -(1 / 2)]
      = ({ baseState with isMuted := true }, none) :=
  ⟨rfl, rfl, rfl, rfl, rfl⟩

/-- A healthy LIVE state holding every resource: an in-flight playback
source, an active mic track, a running video frame timer and open audio
contexts. -/
def closedState : LiveState :=
  { baseState with
      sources := [7]
      frameInterval := true }

/-- C7 counterexample: on `closedState` the remote close handler only flips
the active flag and returns the status to IDLE; the mic track is still live,
the frame timer still set, the output audio context still open and source 7
still in flight — a close event does not perform the full teardown the claim
asserts. -/
theorem remote_close_no_teardown_counterexample :
    (onClose closedState).status = Status.IDLE ∧
    (onClose closedState).isActive = false ∧
    (onClose closedState).micStream = true ∧
    (onClose closedState).frameInterval = true ∧
    (onClose closedState).audioContextOut = true ∧
    (onClose closedState).sources = [7] :=
  ⟨rfl, rfl, rfl, rfl, rfl, rfl⟩

/-- C7 amended: a remote error event triggers full teardown to IDLE — the
session is closed, the frame timer cleared, the media tracks stopped, every
in-flight playback source stopped and the set cleared, the audio contexts
closed and the mic level zeroed; a remote close event transitions the session
to IDLE and marks it inactive but tears down none of those resources. -/
theorem remote_error_full_teardown_close_partial (st : LiveState) :
    (onError st).1.session = false ∧
    (onError st).1.frameInterval = false ∧
    (onError st).1.micStream = false ∧
    (onError st).1.videoStream = false ∧
    (onError st).1.sources = [] ∧
    (onError st).2 = st.sources ∧
    (onError st).1.audioContextIn = false ∧
    (onError st).1.audioContextOut = false ∧
    (onError st).1.isActive = false ∧
    (onError st).1.status = Status.IDLE ∧
    onClose st = { st with isActive := false, status := Status.IDLE } :=
  ⟨rfl, rfl, rfl, rfl, rfl, rfl, rfl, rfl, rfl, rfl, rfl⟩

/-- C8: the session holds at most one resumption handle (an `Option` field);
a resumption update marked resumable and carrying a (nonempty) new handle
replaces the stored one while every other update leaves it unchanged; the
stored handle is supplied verbatim in the next connect request configuration;
and a connect attempt clears the transcript and reasoning buffers exactly
when no handle is held. -/
theorem resumption_handle_contract (st : LiveState) (h : String) :
    (h ≠ "" →
      (handleResumptionUpdate st true (some h)).resumptionHandle = some h) ∧
    handleResumptionUpdate st false (some h) = st ∧
    handleResumptionUpdate st true none = st ∧
    handleResumptionUpdate st true (some "") = st ∧
    (st.resumptionHandle = some h → h ≠ "" →
      sessionResumptionConfig st = some h ∧
      (startSessionPrep st).transcriptions = st.transcriptions ∧
      (startSessionPrep st).currentThoughts = st.currentThoughts) ∧
    (st.resumptionHandle = none →
      sessionResumptionConfig st = none ∧
      (startSessionPrep st).transcriptions = [] ∧
      (startSessionPrep st).currentThoughts = "") := by
  refine ⟨?_, ?_, ?_, ?_, ?_, ?_⟩
  · intro hne
    simp [handleResumptionUpdate, hne]
  · simp [handleResumptionUpdate]
  · rfl
  · simp [handleResumptionUpdate]
  · intro hh hne
    refine ⟨?_, ?_, ?_⟩ <;>
      simp [sessionResumptionConfig, liveConfigResumptionHandle,
        startSessionPrep, hh, hne]
  · intro hh
    refine ⟨?_, ?_, ?_⟩ <;>
      simp [sessionResumptionConfig, liveConfigResumptionHandle,
        startSessionPrep, hh]

/-- C8 witness: the handle "tok-1" replaces a previously stored handle, is
passed verbatim into the connect configuration with the transcript kept, and
a fresh session (no handle) connects with cleared buffers and no handle in
its configuration. -/
theorem resumption_handle_contract_witness :
    (handleResumptionUpdate { baseState with resumptionHandle := some "old" }
        true (some "tok-1")).resumptionHandle = some "tok-1" ∧
    sessionResumptionConfig { baseState with resumptionHandle := some "tok-1" }
      = some "tok-1" ∧
    (startSessionPrep { baseState with resumptionHandle := some "tok-1" }).transcriptions
      = ({ baseState with resumptionHandle := some "tok-1" } : LiveState).transcriptions ∧
    sessionResumptionConfig baseState = none ∧
    (startSessionPrep baseState).transcriptions = [] := by
  have h1 := resumption_handle_contract
    { baseState with resumptionHandle := some "old" } "tok-1"
  have h2 := resumption_handle_contract
    { baseState with resumptionHandle := some "tok-1" } "tok-1"
  have h3 := resumption_handle_contract baseState "tok-1"
  exact ⟨h1.1 (by decide), (h2.2.2.2.2.1 rfl (by decide)).1,
    (h2.2.2.2.2.1 rfl (by decide)).2.1, (h3.2.2.2.2.2 rfl).1,
    (h3.2.2.2.2.2 rfl).2.1⟩

/-- C9: local tool dispatch is a total function over every incoming call:
each call produces a result whose status field is "success", and a call whose
tool name is not specifically handled (only `get_weather` is) still yields
the generic success acknowledgement rather than failing. -/
theorem tool_dispatch_total (fc : FunctionCall) :
    (dispatch fc).status = "success" ∧
    (fc.name ≠ "get_weather" →
      dispatch fc
        = { status := "success", temperature := none, location := none }) := by
  constructor
  · by_cases hname : fc.name = "get_weather" <;> simp [dispatch, hname]
  · intro hname
    simp [dispatch, hname]

/-- C9 witness: the registered-but-unhandled tool `control_light` gets the
generic success acknowledgement. -/
theorem tool_dispatch_total_witness :
    dispatch { id := "c9", name := "control_light", args := [] }
      = { status := "success", temperature := none, location := none } :=
  (tool_dispatch_total
    { id := "c9", name := "control_light", args := [] }).2 (by decide)

theorem bytesToInt16LE_int16ToBytesLE (n : ℤ) (hlo : -32768 ≤ n)
    (hhi : n < 32768) :
    bytesToInt16LE ((n % 65536).toNat % 256) ((n % 65536).toNat / 256) = n := by
  have h1 : (0 : ℤ) ≤ n % 65536 := Int.emod_nonneg n (by norm_num)
  have h2 : n % 65536 < 65536 := Int.emod_lt_of_pos n (by norm_num)
  have hcast : (((n % 65536).toNat : ℤ)) = n % 65536 := Int.toNat_of_nonneg h1
  unfold bytesToInt16LE
  have hrec : (n % 65536).toNat % 256 + 256 * ((n % 65536).toNat / 256)
      = (n % 65536).toNat := Nat.mod_add_div _ _
  rw [hrec]
  show (if (n % 65536).toNat < 32768 then (((n % 65536).toNat : ℤ))
        else ((n % 65536).toNat : ℤ) - 65536) = n
  split <;> omega

theorem encodeSample_mem_int16 (s : ℚ) :
    -32768 ≤ encodeSample s ∧ encodeSample s < 32768 := by
  unfold encodeSample
  constructor
  · exact le_min (by norm_num) (le_max_left _ _)
  · exact lt_of_le_of_lt (min_le_left _ _) (by norm_num)

theorem encode_cons (s : ℚ) (xs : List ℚ) :
    encode (s :: xs) = int16ToBytesLE (encodeSample s) ++ encode xs := by
  simp [encode]

theorem encode_length (x : List ℚ) : (encode x).length = 2 * x.length := by
  induction x with
  | nil => rfl
  | cons s xs ih =>
    rw [encode_cons]
    simp only [List.length_append, List.length_cons, ih, int16ToBytesLE]
    simp
    omega

theorem decodeSamples_encode (x : List ℚ) :
    decodeSamples (encode x)
      = x.map (fun s => ((encodeSample s : ℚ) / 32768)) := by
  induction x with
  | nil => rfl
  | cons s xs ih =>
    have hb := encodeSample_mem_int16 s
    rw [encode_cons]
    show decodeSamples
        ((encodeSample s % 65536).toNat % 256
          :: (encodeSample s % 65536).toNat / 256 :: encode xs)
      = _
    rw [decodeSamples, ih,
      bytesToInt16LE_int16ToBytesLE (encodeSample s) hb.1 hb.2,
      List.map_cons]

theorem encodeSample_quantization (s : ℚ) (hl : -1 ≤ s) (hr : s ≤ 1) :
    |((encodeSample s : ℚ)) / 32768 - s| ≤ 1 / 32768 := by
  have hclamp : max (-1) (min 1 s) = s := by
    rw [min_eq_right hr, max_eq_right hl]
  have hround : |s * 32768 - (round (s * 32768) : ℚ)| ≤ 1 / 2 :=
    abs_sub_round (s * 32768)
  obtain ⟨hr1, hr2⟩ := abs_le.mp hround
  have hlb : -32768 ≤ round (s * 32768) := by
    have hq : ((-32769 : ℚ)) < (round (s * 32768) : ℚ) := by nlinarith
    have hz : (-32769 : ℤ) < round (s * 32768) := by exact_mod_cast hq
    omega
  have hquant : encodeSample s = min 32767 (round (s * 32768)) := by
    show min 32767 (max (-32768) (round ((max (-1) (min 1 s)) * 32768)))
        = min 32767 (round (s * 32768))
    rw [hclamp, max_eq_right hlb]
  by_cases hub : round (s * 32768) ≤ 32767
  · rw [hquant, min_eq_right hub]
    have heq : ((round (s * 32768) : ℚ)) / 32768 - s
        = ((round (s * 32768) : ℚ) - s * 32768) / 32768 := by ring
    rw [heq, abs_div]
    rw [abs_of_pos (by norm_num : (0 : ℚ) < 32768)]
    rw [div_le_div_iff₀ (by norm_num) (by norm_num)]
    have habs : |(round (s * 32768) : ℚ) - s * 32768| ≤ 1 / 2 := by
      rw [abs_sub_comm]
      exact hround
    nlinarith [abs_nonneg ((round (s * 32768) : ℚ) - s * 32768)]
  · have hub2 : 32768 ≤ round (s * 32768) := by omega
    have hq : ((32768 : ℤ) : ℚ) ≤ (round (s * 32768) : ℚ) :=
      Int.cast_le.mpr hub2
    push_cast at hq
    rw [hquant, min_eq_left (by omega)]
    rw [abs_le]
    constructor <;> push_cast <;> nlinarith

theorem decode_error_iff (bytes : List ℕ) (sr ch : ℕ) :
    decode bytes sr ch = .error .invalidLength
      ↔ bytes.length % (2 * ch) ≠ 0 := by
  unfold decode
  split <;> simp_all

/-- C10: the PCM codec round-trips — for every sample array with values in
[-1, 1], decoding the encoding succeeds and reproduces each sample to within
1/32768 (the 16-bit quantization error); and decode fails with a DecodeError
exactly when the byte length is not a multiple of 2 × channels. -/
theorem codec_round_trip (x : List ℚ) (hx : ∀ s ∈ x, -1 ≤ s ∧ s ≤ 1)
    (sr : ℕ) :
    (∀ (bytes : List ℕ) (sr2 ch : ℕ),
        decode bytes sr2 ch = .error .invalidLength
          ↔ bytes.length % (2 * ch) ≠ 0) ∧
    ∃ chunk, decode (encode x) sr 1 = .ok chunk ∧
      chunk.samples.length = x.length ∧
      ∀ i : ℕ, i < x.length →
        |chunk.samples.getD i 0 - x.getD i 0| ≤ 1 / 32768 := by
  refine ⟨decode_error_iff, ?_⟩
  have hok : decode (encode x) sr 1
      = .ok ⟨decodeSamples (encode x), sr, 1⟩ := by
    unfold decode
    rw [if_pos]
    rw [encode_length]
    omega
  refine ⟨⟨decodeSamples (encode x), sr, 1⟩, hok, ?_, ?_⟩
  · rw [decodeSamples_encode]
    simp
  · intro i hi
    have hlen : (decodeSamples (encode x)).length = x.length := by
      rw [decodeSamples_encode]
      simp
    have hi2 : i < (decodeSamples (encode x)).length := by omega
    show |(decodeSamples (encode x)).getD i 0 - x.getD i 0| ≤ 1 / 32768
    rw [List.getD_eq_getElem _ _ hi2, List.getD_eq_getElem _ _ hi]
    have hget : (decodeSamples (encode x))[i]
        = ((encodeSample x[i] : ℚ) / 32768) := by
      have hmap := decodeSamples_encode x
      rw [List.getElem_of_eq hmap hi2, List.getElem_map]
    rw [hget]
    have hmem := List.getElem_mem hi
    exact encodeSample_quantization x[i] (hx _ hmem).1 (hx _ hmem).2

/-- C10 witness: the concrete sample array [1, -1/2, 0] encodes and decodes
back to within 1/32768 per sample. -/
theorem codec_round_trip_witness :
    (∀ (bytes : List ℕ) (sr2 ch : ℕ),
        decode bytes sr2 ch = .error .invalidLength
          ↔ bytes.length % (2 * ch) ≠ 0) ∧
    ∃ chunk, decode (encode [1, -(1 / 2), 0]) 24000 1 = .ok chunk ∧
      chunk.samples.length = ([1, -(1 / 2), (0 : ℚ)]).length ∧
      ∀ i : ℕ, i < ([1, -(1 / 2), (0 : ℚ)]).length →
        |chunk.samples.getD i 0 - ([1, -(1 / 2), (0 : ℚ)]).getD i 0| ≤ 1 / 32768 :=
  codec_round_trip [1, -(1 / 2), 0]
    (by norm_num [List.forall_mem_cons]) 24000

end SanzLive
